import Mathlib

/-!
Shallow embedding of the IBTK side-synchronization fill pattern
(`SideSynchCopyFillPattern::calculateOverlap`) and of the staggered-grid
Poisson level solver (`SCPoissonPETScLevelSolver`), together with proofs of
the specified properties.

Boxes are axis-aligned integer boxes in `D`-dimensional index space with
inclusive bounds; a box is empty when some upper bound is below the
corresponding lower bound.
-/

namespace IBTK

variable {D : Nat}

/-- An axis-aligned integer-indexed box with inclusive per-dimension bounds
(SAMRAI `Box<NDIM>`). -/
structure Box (D : Nat) where
  lower : Fin D → Int
  upper : Fin D → Int
deriving DecidableEq

/-- A box is empty when some dimension has `upper < lower`
(SAMRAI `Box::empty`). -/
def Box.empty (b : Box D) : Prop := ∃ d, b.upper d < b.lower d

instance (b : Box D) : Decidable b.empty := by
  unfold Box.empty; infer_instance

/-- Box intersection: componentwise `max` of lower bounds and `min` of
upper bounds (SAMRAI `operator*` on boxes). -/
def Box.inter (a b : Box D) : Box D where
  lower := fun d => max (a.lower d) (b.lower d)
  upper := fun d => min (a.upper d) (b.upper d)

/-- Translate a box by an integer offset vector (SAMRAI `Box::shift`). -/
def Box.shift (b : Box D) (v : Fin D → Int) : Box D where
  lower := fun d => b.lower d + v d
  upper := fun d => b.upper d + v d

/-- Containment: `a` is contained in `b` (every point of `a` lies in `b`). -/
def Box.subset (a b : Box D) : Prop :=
  ∀ d, b.lower d ≤ a.lower d ∧ a.upper d ≤ b.upper d

/-- The side box `SideGeometry<NDIM>::toSideBox(box, axis)`: the cell-indexed box expanded
to the face positions normal to `axis`, i.e. the upper bound on `axis` grows
by one. -/
def toSideBox (b : Box D) (axis : Fin D) : Box D where
  lower := b.lower
  upper := Function.update b.upper axis (b.upper axis + 1)

/-- A per-axis list of destination boxes plus the originating translation
offset (SAMRAI `SideOverlap<NDIM>`). -/
structure SideOverlap (D : Nat) where
  dstBoxes : Fin D → List (Box D)
  offset : Fin D → Int

/-- Emptiness test `SideOverlap::isOverlapEmpty`: every axis has an empty destination
box list. -/
def SideOverlap.isOverlapEmpty (o : SideOverlap D) : Prop :=
  ∀ a, o.dstBoxes a = []

instance (o : SideOverlap D) : Decidable o.isOverlapEmpty := by
  unfold SideOverlap.isOverlapEmpty; infer_instance

/-- The skip test of `SideSynchCopyFillPattern::calculateOverlap`: axis
`axis` is skipped when the source offset has a nonzero component on some
other axis. -/
def skipAxis (src_offset : Fin D → Int) (axis : Fin D) : Bool :=
  decide (∃ d, d ≠ axis ∧ src_offset d ≠ 0)

/-- The single-layer stencil box of `calculateOverlap`: the destination box
expanded to side positions on `axis`, with its lower bound on `axis` set to
its upper bound (only the topmost face layer). -/
def stencilBox (dst_box : Box D) (axis : Fin D) : Box D :=
  let s := toSideBox dst_box axis
  { s with lower := Function.update s.lower axis (s.upper axis) }

/-- The method `SideSynchCopyFillPattern::calculateOverlap`, with the delegated call to
the external geometry collaborator (`dst_geometry.calculateOverlap(...)`)
passed in as `box_geom_overlap` and the destination geometry's box as
`dst_box`.  If the baseline overlap is empty it is returned unchanged;
otherwise each non-skipped axis keeps the non-empty intersections of the
baseline boxes with the single-layer stencil box. -/
def calculateOverlap (dst_box : Box D) (box_geom_overlap : SideOverlap D)
    (src_offset : Fin D → Int) : SideOverlap D :=
  if box_geom_overlap.isOverlapEmpty then box_geom_overlap
  else
    { dstBoxes := fun axis =>
        if skipAxis src_offset axis then []
        else
          (box_geom_overlap.dstBoxes axis).filterMap fun b =>
            let overlap_box := (stencilBox dst_box axis).inter b
            if overlap_box.empty then none else some overlap_box,
      offset := src_offset }

/-- The per-axis baseline candidate box: the masked source region expanded to
side positions on `a`, translated by the offset, intersected with the
destination side region. -/
def togetherBox (dst_box src_box src_mask : Box D) (src_offset : Fin D → Int)
    (a : Fin D) : Box D :=
  ((toSideBox (src_box.inter src_mask) a).shift src_offset).inter (toSideBox dst_box a)

/-- Modelled from the spec: the generic staggered-grid overlap routine of the
external geometry collaborator (`SideGeometry<NDIM>::calculateOverlap`, the
`baselineOverlap` contract of the spec), specialized to zero ghost width and
interior overwriting as used by this synchronization pattern.  For each axis
the candidate source region (source box restricted by the mask), expanded to
side positions and translated by the source offset, is intersected with the
destination side region; a non-empty intersection is the single baseline
destination box for that axis. -/
def baselineOverlap (dst_box src_box src_mask : Box D)
    (src_offset : Fin D → Int) : SideOverlap D where
  dstBoxes := fun a =>
    let together := togetherBox dst_box src_box src_mask src_offset a
    if together.empty then [] else [together]
  offset := src_offset

/-- The overlap computed for a destination patch box `dstB` against a source
patch box `srcB` translated by `off`, with the source mask covering the
source box: the composition of the fill pattern with the modelled baseline
routine. -/
def patchPairOverlap (dstB srcB : Box D) (off : Fin D → Int) : SideOverlap D :=
  calculateOverlap dstB (baselineOverlap dstB srcB srcB off) off

/-- Pointwise negation of an offset vector. -/
def negOff (v : Fin D → Int) : Fin D → Int := fun d => -(v d)

/-- Two nonempty regions abut across the boundary face normal to `a` once the
source is translated by `off`: the destination's upper face on `a` coincides
with the shifted source's lower face, or vice versa. -/
def abutsOnAxis (A B : Box D) (a : Fin D) (off : Fin D → Int) : Prop :=
  A.upper a + 1 = B.lower a + off a ∨ B.upper a + off a + 1 = A.lower a

/-- The two regions are disjoint and non-adjacent under the translation
`off`: on some dimension they are separated by at least one full cell, so no
cell face is shared. -/
def separatedBeyondFace (A B : Box D) (off : Fin D → Int) : Prop :=
  ∃ d, A.upper d + 1 < B.lower d + off d ∨ B.upper d + off d + 1 < A.lower d

/-! ### Level solver lifecycle (`SCPoissonPETScLevelSolver`)

The solver's resource holdings are abstracted to Booleans: whether the DOF
index patch data is allocated on the level, whether the distributed PETSc
vector/matrix objects are held, and whether the two communication schedules
are held.  Patch-data allocation primitives are fallible (`Except`): SAMRAI
treats double allocation and deallocation of unallocated data as errors, so
the guards in the solver are what keep these calls safe. -/

/-- Abstract resource state of one `SCPoissonPETScLevelSolver` instance. -/
structure SolverState where
  is_initialized : Bool
  dof_index_allocated : Bool
  petsc_objects_held : Bool
  schedules_held : Bool
deriving DecidableEq

/-- The query `PatchLevel::checkAllocated(d_dof_index_idx)`. -/
def checkAllocated (s : SolverState) : Bool := s.dof_index_allocated

/-- Allocation `PatchLevel::allocatePatchData(d_dof_index_idx)`: faults on data that is
already allocated. -/
def allocatePatchData (s : SolverState) : Except String SolverState :=
  if s.dof_index_allocated then Except.error "patch data already allocated"
  else Except.ok { s with dof_index_allocated := true }

/-- Deallocation `PatchLevel::deallocatePatchData(d_dof_index_idx)`: faults on data that
is not currently allocated. -/
def deallocatePatchData (s : SolverState) : Except String SolverState :=
  if s.dof_index_allocated then Except.ok { s with dof_index_allocated := false }
  else Except.error "patch data not allocated"

/-- The guarded DOF-index allocation performed by
`initializeSolverStateSpecialized`:
`if (!level->checkAllocated(d_dof_index_idx)) level->allocatePatchData(...)`. -/
def initDofIndexAllocation (s : SolverState) : Except String SolverState :=
  if ¬ checkAllocated s then allocatePatchData s else Except.ok s

/-- The method `SCPoissonPETScLevelSolver::deallocateSolverStateSpecialized`:
`if (level->checkAllocated(d_dof_index_idx)) level->deallocatePatchData(...)`. -/
def deallocateSolverStateSpecialized (s : SolverState) : Except String SolverState :=
  if checkAllocated s then deallocatePatchData s else Except.ok s

/-- Modelled from the spec: `PETScLevelSolver::deallocateSolverState` (base
class, not among the given sources) releases the distributed vector/matrix
and the schedules, invokes the specialized deallocation (which releases the
DOF index field), and transitions the solver to Uninitialized. -/
def deallocateSolverState (s : SolverState) : Except String SolverState :=
  (deallocateSolverStateSpecialized s).map fun s' =>
    { s' with petsc_objects_held := false, schedules_held := false,
              is_initialized := false }

/-- The destructor `SCPoissonPETScLevelSolver::~SCPoissonPETScLevelSolver`:
`if (d_is_initialized) deallocateSolverState();`.  The Boolean records
whether deallocation was invoked. -/
def scPoissonDestructor (s : SolverState) : Except String (SolverState × Bool) :=
  if s.is_initialized then (deallocateSolverState s).map (fun s' => (s', true))
  else Except.ok (s, false)

/-! ### Initialization order (`initializeSolverStateSpecialized`) -/

/-- Observable steps of solver-state initialization. -/
inductive InitStep where
  | allocDOFIndexData : InitStep
  | assignDOFIndices : InitStep
  | createVector : Nat → InitStep
  | createMatrix : Nat → InitStep
  | buildDataSynchSchedule : InitStep
  | buildGhostFillSchedule : InitStep
  | copyData : InitStep
deriving DecidableEq

/-- Per-process state relevant to initialization: whether the DOF index data
is allocated, and the per-process DOF counts populated by DOF assignment. -/
structure PerProcState where
  dof_index_allocated : Bool
  num_dofs_per_proc : List Nat

/-- Modelled from the spec: `PETScVecUtilities::constructPatchLevelDOFIndices`
(not among the given sources) assigns the DOF indices and populates
`d_num_dofs_per_proc`. -/
def constructPatchLevelDOFIndices (dofCounts : List Nat) (s : PerProcState) :
    PerProcState × List InitStep :=
  ({ s with num_dofs_per_proc := dofCounts }, [InitStep.assignDOFIndices])

/-- Modelled from the spec: `VecCreateMPI` creates a distributed vector with
the given local size. -/
def vecCreateMPI (localSize : Nat) : List InitStep :=
  [InitStep.createVector localSize]

/-- Modelled from the spec:
`PETScMatUtilities::constructPatchLevelSCLaplaceOp` (not among the given
sources) builds the sparse operator sized by the per-process DOF counts. -/
def constructPatchLevelSCLaplaceOp (localSize : Nat) : List InitStep :=
  [InitStep.createMatrix localSize]

/-- The method `SCPoissonPETScLevelSolver::initializeSolverStateSpecialized` as a state
transformer emitting the trace of initialization steps, in the order of the
source: guarded DOF index allocation, DOF index assignment, creation of the
two distributed vectors and the matrix (each sized by this process's DOF
count), then construction of the data-synch and ghost-fill schedules. -/
def initializeSolverStateSpecialized (dofCounts : List Nat) (rank : Nat)
    (s : PerProcState) : PerProcState × List InitStep :=
  let allocTrace :=
    if ¬ s.dof_index_allocated then [InitStep.allocDOFIndexData] else []
  let s0 : PerProcState := { s with dof_index_allocated := true }
  let (s1, assignTrace) := constructPatchLevelDOFIndices dofCounts s0
  let n := s1.num_dofs_per_proc.getD rank 0
  (s1, allocTrace ++ assignTrace ++ vecCreateMPI n ++ vecCreateMPI n ++
    constructPatchLevelSCLaplaceOp n ++
    [InitStep.buildDataSynchSchedule, InitStep.buildGhostFillSchedule])

/-! ### Right-hand-side setup (`setupKSPVecs`)

Patch data on a level is modelled as a store mapping a patch data index and
a patch id to a field (a function from face positions to values); the store
also tracks which indices are registered with the variable database and
which are allocated on the level.  Values are modelled as integers: the
claims are about which entries change, not about floating-point
arithmetic. -/

/-- The per-patch information consumed by `setupKSPVecs`: the patch id, the
geometry's physical-boundary flag, and (modelled from the spec) which face
positions are boundary-adjacent and the boundary contribution that
`PoissonUtilities::adjustSCBoundaryRhsEntries` adds there. -/
structure PatchInfo where
  id : Nat
  intersectsPhysicalBoundary : Bool
  isBoundaryAdjacent : Nat → Bool
  bdryContrib : Nat → Int

/-- Patch data storage of one patch level, plus the variable database's
registered indices and the level's allocated indices. -/
structure LevelStore where
  registered : List Nat
  allocated : List Nat
  data : Nat → Nat → Nat → Int

/-- A fresh patch data index: one past the largest registered index. -/
def freshIndex (s : LevelStore) : Nat := s.registered.foldr max 0 + 1

/-- The call `VariableDatabase::registerClonedPatchDataIndex`: registers and returns a
fresh patch data index. -/
def registerClonedPatchDataIndex (s : LevelStore) : Nat × LevelStore :=
  (freshIndex s, { s with registered := freshIndex s :: s.registered })

/-- The call `VariableDatabase::removePatchDataIndex`. -/
def removePatchDataIndex (idx : Nat) (s : LevelStore) : LevelStore :=
  { s with registered := s.registered.erase idx }

/-- The call `PatchLevel::allocatePatchData` for the given index. -/
def allocateLevelData (idx : Nat) (s : LevelStore) : LevelStore :=
  { s with allocated := idx :: s.allocated }

/-- The call `PatchLevel::deallocatePatchData` for the given index. -/
def deallocateLevelData (idx : Nat) (s : LevelStore) : LevelStore :=
  { s with allocated := s.allocated.erase idx }

/-- Overwrite the field stored at data index `idx` on patch `pid`. -/
def writePatchData (s : LevelStore) (idx pid : Nat) (f : Nat → Int) : LevelStore :=
  { s with data := Function.update s.data idx (Function.update (s.data idx) pid f) }

/-- Modelled from the spec: `PoissonUtilities::adjustSCBoundaryRhsEntries`
(not among the given sources) adjusts exactly the boundary-adjacent entries
of the field, adding the computed boundary-condition contribution there and
leaving interior entries unchanged. -/
def adjustSCBoundaryRhsEntries (p : PatchInfo) (f : Nat → Int) : Nat → Int :=
  fun face => if p.isBoundaryAdjacent face then f face + p.bdryContrib face else f face

/-- Modelled from the spec: `PETScVecUtilities::copyToPatchLevelVec` (not
among the given sources) writes the field stored at the given data index
into the distributed vector; it reads patch data and never writes it. -/
def copyToPatchLevelVec (idx : Nat) (s : LevelStore) : Nat → Nat → Int :=
  s.data idx

/-- The state visible to `setupKSPVecs`: the two distributed vectors and the
level's patch data store. -/
structure KSPVecsState where
  petsc_x : Nat → Nat → Int
  petsc_b : Nat → Nat → Int
  store : LevelStore

/-- The body of the patch loop of `setupKSPVecs`: clone the right-hand-side
field into the adjusted index, then adjust it there when the patch touches
the physical boundary. -/
def setupKSPVecsPatchStep (b_idx b_adj_idx : Nat) (s : LevelStore)
    (p : PatchInfo) : LevelStore :=
  let b_data := s.data b_idx p.id
  let b_adj_data := b_data
  let b_adj_data :=
    if p.intersectsPhysicalBoundary then adjustSCBoundaryRhsEntries p b_adj_data
    else b_adj_data
  writePatchData s b_adj_idx p.id b_adj_data

/-- The method `SCPoissonPETScLevelSolver::setupKSPVecs`: copy the solution into the
distributed solution vector unless the initial guess is flagged nonzero;
register and allocate a private clone of the right-hand-side field, copy and
boundary-adjust it per patch, copy the clone into the distributed
right-hand-side vector, then deallocate the clone and release its index. -/
def setupKSPVecs (initial_guess_nonzero : Bool) (x_idx b_idx : Nat)
    (patches : List PatchInfo) (st : KSPVecsState) : KSPVecsState :=
  let px := if ¬ initial_guess_nonzero then copyToPatchLevelVec x_idx st.store
            else st.petsc_x
  let (b_adj_idx, s0) := registerClonedPatchDataIndex st.store
  let s1 := allocateLevelData b_adj_idx s0
  let s2 := patches.foldl (setupKSPVecsPatchStep b_idx b_adj_idx) s1
  let pb := copyToPatchLevelVec b_adj_idx s2
  let s3 := removePatchDataIndex b_adj_idx (deallocateLevelData b_adj_idx s2)
  { petsc_x := px, petsc_b := pb, store := s3 }

theorem Box.not_empty_iff (b : Box D) : ¬ b.empty ↔ ∀ d, b.lower d ≤ b.upper d := by
  unfold Box.empty
  push_neg
  exact Iff.rfl

theorem Box.inter_subset_left (a b : Box D) : (a.inter b).subset a := by
  intro d
  exact ⟨le_max_left _ _, min_le_left _ _⟩

theorem Box.inter_self (b : Box D) : b.inter b = b := by
  simp [Box.inter]

theorem skipAxis_eq_false_iff (off : Fin D → Int) (a : Fin D) :
    skipAxis off a = false ↔ ∀ d, d ≠ a → off d = 0 := by
  simp [skipAxis]

theorem toSideBox_lower (b : Box D) (a d : Fin D) :
    (toSideBox b a).lower d = b.lower d := rfl

theorem toSideBox_upper (b : Box D) (a d : Fin D) :
    (toSideBox b a).upper d = if d = a then b.upper a + 1 else b.upper d := by
  simp [toSideBox, Function.update_apply]

theorem stencilBox_lower (b : Box D) (a d : Fin D) :
    (stencilBox b a).lower d = if d = a then b.upper a + 1 else b.lower d := by
  simp [stencilBox, toSideBox, Function.update_apply]

theorem stencilBox_upper (b : Box D) (a d : Fin D) :
    (stencilBox b a).upper d = if d = a then b.upper a + 1 else b.upper d := by
  simp [stencilBox, toSideBox, Function.update_apply]

theorem Box.inter_lower (x y : Box D) (d : Fin D) :
    (x.inter y).lower d = max (x.lower d) (y.lower d) := rfl

theorem Box.inter_upper (x y : Box D) (d : Fin D) :
    (x.inter y).upper d = min (x.upper d) (y.upper d) := rfl

theorem togetherBox_lower (dstB srcB mask : Box D) (off : Fin D → Int) (a d : Fin D) :
    (togetherBox dstB srcB mask off a).lower d
      = max (max (srcB.lower d) (mask.lower d) + off d) (dstB.lower d) := rfl

theorem togetherBox_upper (dstB srcB mask : Box D) (off : Fin D → Int) (a d : Fin D) :
    (togetherBox dstB srcB mask off a).upper d
      = min ((if d = a then min (srcB.upper a) (mask.upper a) + 1
              else min (srcB.upper d) (mask.upper d)) + off d)
            (if d = a then dstB.upper a + 1 else dstB.upper d) := by
  by_cases h : d = a
  all_goals simp [togetherBox, Box.inter, Box.shift, toSideBox,
    Function.update_apply, h]

theorem negOff_negOff (v : Fin D → Int) : negOff (negOff v) = v := by
  funext d
  simp [negOff]

theorem baselineOverlap_dstBoxes (dstB srcB mask : Box D) (off : Fin D → Int)
    (a : Fin D) :
    (baselineOverlap dstB srcB mask off).dstBoxes a
      = if (togetherBox dstB srcB mask off a).empty then []
        else [togetherBox dstB srcB mask off a] := rfl

/-- C2: for every axis `a` and every source offset with a nonzero component
on some axis `d ≠ a`, `calculateOverlap` returns an overlap whose destination
list on axis `a` is empty, regardless of the baseline overlap (hence
regardless of geometric adjacency). -/
theorem calculateOverlap_cross_offset_axis_empty (dst_box : Box D)
    (ov : SideOverlap D) (off : Fin D → Int) (a d : Fin D)
    (hd : d ≠ a) (hoff : off d ≠ 0) :
    (calculateOverlap dst_box ov off).dstBoxes a = [] := by
  by_cases h : ov.isOverlapEmpty
  · simp only [calculateOverlap, if_pos h]
    exact h a
  · have hs : skipAxis off a = true := by
      simp [skipAxis]
      exact ⟨d, hd, hoff⟩
    simp [calculateOverlap, if_neg h, hs]

/-- Witness for C2 at a concrete input in two dimensions. -/
theorem calculateOverlap_cross_offset_axis_empty_witness :
    (calculateOverlap (D := 2) ⟨![0, 0], ![3, 3]⟩
        ⟨fun _ => [⟨![0, 0], ![1, 1]⟩], ![0, 1]⟩ ![0, 1]).dstBoxes 0 = [] :=
  calculateOverlap_cross_offset_axis_empty _ _ _ 0 1 (by decide) (by decide)

/-- C3: on a non-skipped axis `a`, when the baseline overlap is non-empty,
the destination list of `calculateOverlap` consists exactly of the non-empty
intersections of the baseline axis-`a` boxes with the single-layer stencil
box, and every returned region is non-empty and contained in the stencil
box. -/
theorem calculateOverlap_axis_stencil (dst_box : Box D) (ov : SideOverlap D)
    (off : Fin D → Int) (a : Fin D) (hne : ¬ ov.isOverlapEmpty)
    (hskip : skipAxis off a = false) :
    (∀ r, r ∈ (calculateOverlap dst_box ov off).dstBoxes a ↔
        ∃ b ∈ ov.dstBoxes a, ¬ ((stencilBox dst_box a).inter b).empty ∧
          r = (stencilBox dst_box a).inter b)
    ∧ ∀ r ∈ (calculateOverlap dst_box ov off).dstBoxes a,
        ¬ r.empty ∧ r.subset (stencilBox dst_box a) := by
  have hmem : ∀ r, r ∈ (calculateOverlap dst_box ov off).dstBoxes a ↔
      ∃ b ∈ ov.dstBoxes a, ¬ ((stencilBox dst_box a).inter b).empty ∧
        r = (stencilBox dst_box a).inter b := by
    intro r
    simp only [calculateOverlap, if_neg hne, hskip, Bool.false_eq_true, if_false,
      List.mem_filterMap]
    constructor
    · rintro ⟨b, hb, hr⟩
      by_cases hbe : ((stencilBox dst_box a).inter b).empty
      · simp [hbe] at hr
      · simp only [if_neg hbe, Option.some.injEq] at hr
        exact ⟨b, hb, hbe, hr.symm⟩
    · rintro ⟨b, hb, hbe, rfl⟩
      exact ⟨b, hb, by simp [hbe]⟩
  refine ⟨hmem, fun r hr => ?_⟩
  rcases (hmem r).1 hr with ⟨b, _, hbe, rfl⟩
  exact ⟨hbe, Box.inter_subset_left _ _⟩

/-- Witness for C3 at a concrete input in two dimensions: the destination
box `[0,3]×[0,3]` against a baseline box `[2,5]×[1,2]` on axis 0. -/
theorem calculateOverlap_axis_stencil_witness :
    ¬ ((stencilBox (D := 2) ⟨![0, 0], ![3, 3]⟩ 0).inter ⟨![2, 1], ![5, 2]⟩).empty
    ∧ ((stencilBox (D := 2) ⟨![0, 0], ![3, 3]⟩ 0).inter
        ⟨![2, 1], ![5, 2]⟩).subset (stencilBox ⟨![0, 0], ![3, 3]⟩ 0) := by
  have h := calculateOverlap_axis_stencil (D := 2) ⟨![0, 0], ![3, 3]⟩
    ⟨fun _ => [⟨![2, 1], ![5, 2]⟩], ![0, 0]⟩ ![0, 0] 0
    (by intro hc; exact List.cons_ne_nil _ _ (hc 0)) (by decide)
  have hm : (stencilBox (D := 2) ⟨![0, 0], ![3, 3]⟩ 0).inter ⟨![2, 1], ![5, 2]⟩
      ∈ (calculateOverlap (D := 2) ⟨![0, 0], ![3, 3]⟩
          ⟨fun _ => [⟨![2, 1], ![5, 2]⟩], ![0, 0]⟩ ![0, 0]).dstBoxes 0 :=
    (h.1 _).2 ⟨⟨![2, 1], ![5, 2]⟩, List.mem_singleton.2 rfl, by decide, rfl⟩
  exact h.2 _ hm

/-- C6: (1) when the baseline overlap is empty, `calculateOverlap` returns
it unchanged (no per-axis work); (2) consequently, for disjoint and
non-adjacent regions — separated by at least one full cell on some
dimension — the computed overlap is empty on every axis. -/
theorem calculateOverlap_empty_baseline (dst_box : Box D) (ov : SideOverlap D)
    (off : Fin D → Int) (A B : Box D) (off' : Fin D → Int)
    (hov : ov.isOverlapEmpty) (hsep : separatedBeyondFace A B off') :
    calculateOverlap dst_box ov off = ov
    ∧ (patchPairOverlap A B off').isOverlapEmpty := by
  constructor
  · simp [calculateOverlap, hov]
  · obtain ⟨d, hd⟩ := hsep
    have hbase : (baselineOverlap A B B off').isOverlapEmpty := by
      intro a
    -- each axis's candidate box is empty at dimension `d`
      have hempty : (togetherBox A B B off' a).empty := by
        refine ⟨d, ?_⟩
        rw [togetherBox_lower, togetherBox_upper]
        by_cases hda : d = a
        · subst hda
          simp only [if_pos rfl]
          rcases hd with h1 | h1 <;> omega
        · simp only [if_neg hda]
          rcases hd with h1 | h1 <;> omega
      simp [baselineOverlap_dstBoxes, hempty]
    intro a
    simp only [patchPairOverlap, calculateOverlap, if_pos hbase]
    exact hbase a

/-- Witness for C6 at a concrete input in two dimensions: the regions
`[0,1]×[0,1]` and `[3,4]×[0,1]` are separated by a full cell on axis 0. -/
theorem calculateOverlap_empty_baseline_witness :
    calculateOverlap (D := 2) ⟨![0, 0], ![1, 1]⟩ ⟨fun _ => [], ![0, 0]⟩ ![0, 0]
        = ⟨fun _ => [], ![0, 0]⟩
    ∧ (patchPairOverlap (D := 2) ⟨![0, 0], ![1, 1]⟩ ⟨![3, 0], ![4, 1]⟩
        ![0, 0]).isOverlapEmpty :=
  calculateOverlap_empty_baseline _ _ _ _ _ _ (fun _ => rfl)
    ⟨0, Or.inl (by decide)⟩

theorem patchPairOverlap_lower_side (A B : Box D) (off : Fin D → Int) (a : Fin D)
    (hA : ¬ A.empty) (hB : ¬ B.empty)
    (hoff : ∀ d, d ≠ a → off d = 0)
    (habut : A.upper a + 1 = B.lower a + off a)
    (hcross : ∀ d, d ≠ a → max (A.lower d) (B.lower d) ≤ min (A.upper d) (B.upper d)) :
    ∃ r, (patchPairOverlap A B off).dstBoxes a = [r] ∧ ¬ r.empty
      ∧ r.lower a = A.upper a + 1 ∧ r.upper a = A.upper a + 1 := by
  have hAc := (Box.not_empty_iff A).1 hA
  have hBc := (Box.not_empty_iff B).1 hB
  have hT : ¬ (togetherBox A B B off a).empty := by
    rw [Box.not_empty_iff]
    intro d
    rw [togetherBox_lower, togetherBox_upper]
    by_cases hda : d = a
    · subst hda
      simp only [ite_true, eq_self_iff_true, if_true, min_self, max_self]
      have h1 := hAc d
      have h2 := hBc d
      omega
    · simp only [if_neg hda]
      have h1 := hcross d hda
      have h2 := hoff d hda
      omega
  have hbl : (baselineOverlap A B B off).dstBoxes a = [togetherBox A B B off a] := by
    rw [baselineOverlap_dstBoxes, if_neg hT]
  have hne : ¬ (baselineOverlap A B B off).isOverlapEmpty := by
    intro h
    have h0 := h a
    rw [hbl] at h0
    exact List.cons_ne_nil _ _ h0
  have hskip : skipAxis off a = false := (skipAxis_eq_false_iff off a).2 hoff
  have hRne : ¬ ((stencilBox A a).inter (togetherBox A B B off a)).empty := by
    rw [Box.not_empty_iff]
    intro d
    rw [Box.inter_lower, Box.inter_upper, stencilBox_lower, stencilBox_upper,
      togetherBox_lower, togetherBox_upper]
    by_cases hda : d = a
    · subst hda
      simp only [ite_true, eq_self_iff_true, if_true, min_self, max_self]
      have h1 := hAc d
      have h2 := hBc d
      omega
    · simp only [if_neg hda]
      have h1 := hcross d hda
      have h2 := hoff d hda
      have h3 := hAc d
      omega
  refine ⟨(stencilBox A a).inter (togetherBox A B B off a), ?_, hRne, ?_, ?_⟩
  · simp only [patchPairOverlap, calculateOverlap, if_neg hne, hskip,
      Bool.false_eq_true, if_false]
    rw [hbl]
    simp [List.filterMap_cons, hRne]
  · rw [Box.inter_lower, stencilBox_lower, togetherBox_lower]
    simp only [ite_true, eq_self_iff_true, if_true, min_self, max_self]
    have h1 := hAc a
    omega
  · rw [Box.inter_upper, stencilBox_upper, togetherBox_upper]
    simp only [ite_true, eq_self_iff_true, if_true, min_self, max_self]
    have h1 := hBc a
    omega

theorem patchPairOverlap_upper_side (A B : Box D) (off : Fin D → Int) (a : Fin D)
    (hB : ¬ B.empty)
    (habut : A.upper a + 1 = B.lower a + off a) :
    (patchPairOverlap B A (negOff off)).dstBoxes a = [] := by
  have hBc := (Box.not_empty_iff B).1 hB
  by_cases hbase : (baselineOverlap B A A (negOff off)).isOverlapEmpty
  · simp only [patchPairOverlap, calculateOverlap, if_pos hbase]
    exact hbase a
  · simp only [patchPairOverlap, calculateOverlap, if_neg hbase]
    by_cases hskip : skipAxis (negOff off) a
    · simp [hskip]
    · simp only [Bool.not_eq_true] at hskip
      simp only [hskip, Bool.false_eq_true, if_false]
      rw [baselineOverlap_dstBoxes]
      by_cases hT : (togetherBox B A A (negOff off) a).empty
      · simp [hT]
      · have hRe : ((stencilBox B a).inter (togetherBox B A A (negOff off) a)).empty := by
          refine ⟨a, ?_⟩
          rw [Box.inter_lower, Box.inter_upper, stencilBox_lower, stencilBox_upper,
            togetherBox_lower, togetherBox_upper]
          simp only [ite_true, eq_self_iff_true, if_true, min_self, max_self, negOff]
          have h1 := hBc a
          omega
        simp [List.filterMap_cons, hT, hRe]

/-- C1: for a pair of abutting nonempty regions that share the boundary face
normal to axis `a` under an axis-aligned source offset, of the two symmetric
overlap computations (each region once as destination) exactly one yields a
non-empty destination list on axis `a`; that list is a singleton, and its
box lies on the single upper face layer of that computation's destination
region — never on both destinations and never on neither. -/
theorem patchPairOverlap_shared_face_unique (A B : Box D) (off : Fin D → Int)
    (a : Fin D) (hA : ¬ A.empty) (hB : ¬ B.empty)
    (hoff : ∀ d, d ≠ a → off d = 0)
    (hcross : ∀ d, d ≠ a → max (A.lower d) (B.lower d) ≤ min (A.upper d) (B.upper d))
    (habut : abutsOnAxis A B a off) :
    (((patchPairOverlap A B off).dstBoxes a).length = 1
        ∧ (patchPairOverlap B A (negOff off)).dstBoxes a = []
      ∨ (patchPairOverlap A B off).dstBoxes a = []
        ∧ ((patchPairOverlap B A (negOff off)).dstBoxes a).length = 1)
    ∧ (∀ r ∈ (patchPairOverlap A B off).dstBoxes a,
        ¬ r.empty ∧ r.lower a = A.upper a + 1 ∧ r.upper a = A.upper a + 1)
    ∧ (∀ r ∈ (patchPairOverlap B A (negOff off)).dstBoxes a,
        ¬ r.empty ∧ r.lower a = B.upper a + 1 ∧ r.upper a = B.upper a + 1) := by
  rcases habut with h1 | h2
  · obtain ⟨r, hr, hrne, hrl, hru⟩ :=
      patchPairOverlap_lower_side A B off a hA hB hoff h1 hcross
    have h2e := patchPairOverlap_upper_side A B off a hB h1
    refine ⟨Or.inl ⟨by rw [hr]; rfl, h2e⟩, ?_, ?_⟩
    · intro s hs
      rw [hr] at hs
      rcases List.mem_singleton.1 hs with rfl
      exact ⟨hrne, hrl, hru⟩
    · intro s hs
      rw [h2e] at hs
      exact absurd hs (List.not_mem_nil s)
  · have hoff' : ∀ d, d ≠ a → negOff off d = 0 := fun d hd => by
      simp [negOff, hoff d hd]
    have habut' : B.upper a + 1 = A.lower a + negOff off a := by
      simp only [negOff]
      omega
    have hcross' : ∀ d, d ≠ a →
        max (B.lower d) (A.lower d) ≤ min (B.upper d) (A.upper d) := by
      intro d hd
      have h3 := hcross d hd
      omega
    obtain ⟨r, hr, hrne, hrl, hru⟩ :=
      patchPairOverlap_lower_side B A (negOff off) a hB hA hoff' habut' hcross'
    have h1e := patchPairOverlap_upper_side B A (negOff off) a hA habut'
    rw [negOff_negOff] at h1e
    refine ⟨Or.inr ⟨h1e, by rw [hr]; rfl⟩, ?_, ?_⟩
    · intro s hs
      rw [h1e] at hs
      exact absurd hs (List.not_mem_nil s)
    · intro s hs
      rw [hr] at hs
      rcases List.mem_singleton.1 hs with rfl
      exact ⟨hrne, hrl, hru⟩

/-- Witness for C1 at a concrete input in two dimensions: `[0,1]×[0,1]`
abuts `[2,3]×[0,1]` across the face layer `x = 2` on axis 0 with zero
offset; the computation with the lower region as destination keeps exactly
one box and the symmetric computation keeps none. -/
theorem patchPairOverlap_shared_face_unique_witness :
    ((patchPairOverlap (D := 2) ⟨![0, 0], ![1, 1]⟩ ⟨![2, 0], ![3, 1]⟩
        ![0, 0]).dstBoxes 0).length = 1
    ∧ (patchPairOverlap (D := 2) ⟨![2, 0], ![3, 1]⟩ ⟨![0, 0], ![1, 1]⟩
        (negOff ![0, 0])).dstBoxes 0 = [] := by
  have h := patchPairOverlap_shared_face_unique (D := 2)
    ⟨![0, 0], ![1, 1]⟩ ⟨![2, 0], ![3, 1]⟩ ![0, 0] 0
    (by decide) (by decide) (by decide) (by decide) (Or.inl (by decide))
  rcases h.1 with h1 | h1
  · exact h1
  · exact absurd h1.1 (by decide)

theorem mem_le_foldr_max (x : Nat) (l : List Nat) (hx : x ∈ l) :
    x ≤ l.foldr max 0 := by
  induction l with
  | nil => cases hx
  | cons y ys ih =>
    rcases List.mem_cons.1 hx with rfl | h
    · exact le_max_left _ _
    · exact le_trans (ih h) (le_max_right _ _)

theorem freshIndex_not_mem (s : LevelStore) : freshIndex s ∉ s.registered := by
  intro h
  have := mem_le_foldr_max _ _ h
  simp [freshIndex] at this

theorem patchStep_registered (b_idx badj : Nat) (s : LevelStore) (p : PatchInfo) :
    (setupKSPVecsPatchStep b_idx badj s p).registered = s.registered ∧
    (setupKSPVecsPatchStep b_idx badj s p).allocated = s.allocated := by
  simp [setupKSPVecsPatchStep, writePatchData]

theorem patchLoop_registered (b_idx badj : Nat) (ps : List PatchInfo)
    (s : LevelStore) :
    (ps.foldl (setupKSPVecsPatchStep b_idx badj) s).registered = s.registered ∧
    (ps.foldl (setupKSPVecsPatchStep b_idx badj) s).allocated = s.allocated := by
  induction ps generalizing s with
  | nil => exact ⟨rfl, rfl⟩
  | cons p ps ih =>
    rw [List.foldl_cons]
    rcases ih (setupKSPVecsPatchStep b_idx badj s p) with ⟨h1, h2⟩
    rcases patchStep_registered b_idx badj s p with ⟨h3, h4⟩
    exact ⟨h1.trans h3, h2.trans h4⟩

theorem patchLoop_data_frame (b_idx badj i : Nat) (hi : i ≠ badj)
    (ps : List PatchInfo) (s : LevelStore) :
    (ps.foldl (setupKSPVecsPatchStep b_idx badj) s).data i = s.data i := by
  induction ps generalizing s with
  | nil => rfl
  | cons p ps ih =>
    rw [List.foldl_cons, ih]
    simp [setupKSPVecsPatchStep, writePatchData, Function.update_noteq hi]

theorem patchLoop_data_pid_notmem (b_idx badj pid : Nat) (ps : List PatchInfo)
    (s : LevelStore) (hpid : pid ∉ ps.map PatchInfo.id) :
    (ps.foldl (setupKSPVecsPatchStep b_idx badj) s).data badj pid
      = s.data badj pid := by
  induction ps generalizing s with
  | nil => rfl
  | cons p ps ih =>
    simp only [List.map_cons, List.mem_cons, not_or] at hpid
    rw [List.foldl_cons, ih _ hpid.2]
    simp [setupKSPVecsPatchStep, writePatchData, Function.update_same,
      Function.update_noteq hpid.1]



theorem patchLoop_data_at (b_idx badj : Nat) (hne : b_idx ≠ badj)
    (ps : List PatchInfo) (s : LevelStore)
    (hnodup : (ps.map PatchInfo.id).Nodup) (p : PatchInfo) (hp : p ∈ ps) :
    (ps.foldl (setupKSPVecsPatchStep b_idx badj) s).data badj p.id
      = if p.intersectsPhysicalBoundary
        then adjustSCBoundaryRhsEntries p (s.data b_idx p.id)
        else s.data b_idx p.id := by
  induction ps generalizing s with
  | nil => cases hp
  | cons q qs ih =>
    rw [List.foldl_cons]
    rcases List.mem_cons.1 hp with rfl | hp'
    · have hq : p.id ∉ qs.map PatchInfo.id := by
        simpa using (List.nodup_cons.1 hnodup).1
      rw [patchLoop_data_pid_notmem _ _ _ _ _ hq]
      simp [setupKSPVecsPatchStep, writePatchData, Function.update_same]
    · have hstep : (setupKSPVecsPatchStep b_idx badj s q).data b_idx
          = s.data b_idx := by
        simp [setupKSPVecsPatchStep, writePatchData, Function.update_noteq hne]
      rw [ih _ (List.nodup_cons.1 hnodup).2 hp', hstep]

/-- C4: `setupKSPVecs` never mutates the caller's right-hand-side field:
the boundary adjustments go to a freshly registered private clone (an index
that is neither previously registered nor the field's own index), the clone
is deallocated and its index released after the copy into the distributed
vector, and the original field data is bit-for-bit unchanged. -/
theorem setupKSPVecs_preserves_rhs (g : Bool) (x_idx b_idx : Nat)
    (patches : List PatchInfo) (st : KSPVecsState)
    (hb : b_idx ∈ st.store.registered)
    (hsub : ∀ i ∈ st.store.allocated, i ∈ st.store.registered) :
    (setupKSPVecs g x_idx b_idx patches st).store.data b_idx
        = st.store.data b_idx
    ∧ freshIndex st.store ∉ st.store.registered
    ∧ freshIndex st.store ≠ b_idx
    ∧ (setupKSPVecs g x_idx b_idx patches st).store.registered
        = st.store.registered
    ∧ (setupKSPVecs g x_idx b_idx patches st).store.allocated
        = st.store.allocated
    ∧ freshIndex st.store ∉ (setupKSPVecs g x_idx b_idx patches st).store.allocated
    ∧ freshIndex st.store ∉ (setupKSPVecs g x_idx b_idx patches st).store.registered := by
  have hfresh := freshIndex_not_mem st.store
  have hne : freshIndex st.store ≠ b_idx := fun h => hfresh (h ▸ hb)
  have hreg := patchLoop_registered b_idx (freshIndex st.store) patches
    (allocateLevelData (freshIndex st.store)
      { st.store with registered := freshIndex st.store :: st.store.registered })
  have hdata := patchLoop_data_frame b_idx (freshIndex st.store) b_idx
    (fun h => hne h.symm) patches
    (allocateLevelData (freshIndex st.store)
      { st.store with registered := freshIndex st.store :: st.store.registered })
  have hraw : (setupKSPVecs g x_idx b_idx patches st).store.registered
      = st.store.registered
      ∧ (setupKSPVecs g x_idx b_idx patches st).store.allocated
      = st.store.allocated := by
    simp only [setupKSPVecs, registerClonedPatchDataIndex, removePatchDataIndex,
      deallocateLevelData]
    constructor
    · rw [hreg.1]
      simp [allocateLevelData]
    · rw [hreg.2]
      simp [allocateLevelData]
  refine ⟨?_, hfresh, hne, hraw.1, hraw.2, ?_, ?_⟩
  · simp only [setupKSPVecs, registerClonedPatchDataIndex, removePatchDataIndex,
      deallocateLevelData]
    rw [hdata]
    rfl
  · rw [hraw.2]
    exact fun h => hfresh (hsub _ h)
  · rw [hraw.1]
    exact hfresh

/-- Witness for C4 at a concrete input: one registered and allocated field
index holding concrete data, one boundary patch. -/
theorem setupKSPVecs_preserves_rhs_witness :
    (setupKSPVecs false 1 2
        [⟨7, true, fun f => decide (f = 0), fun _ => 5⟩]
        ⟨fun _ _ => 0, fun _ _ => 0,
          ⟨[2], [2], fun i pid face => (i : Int) + pid + face⟩⟩).store.data 2
      = (fun (pid face : Nat) => (2 : Int) + pid + face)
    ∧ (setupKSPVecs false 1 2
        [⟨7, true, fun f => decide (f = 0), fun _ => 5⟩]
        ⟨fun _ _ => 0, fun _ _ => 0,
          ⟨[2], [2], fun i pid face => (i : Int) + pid + face⟩⟩).store.registered
      = [2] := by
  have h := setupKSPVecs_preserves_rhs false 1 2
    [⟨7, true, fun f => decide (f = 0), fun _ => 5⟩]
    ⟨fun _ _ => 0, fun _ _ => 0,
      ⟨[2], [2], fun i pid face => (i : Int) + pid + face⟩⟩
    (by simp) (by simp)
  exact ⟨h.1, h.2.2.2.1⟩

/-- C5: the boundary adjustment is applied exactly to the patches that
intersect the physical domain boundary; for every other patch the entries
copied into the distributed right-hand-side vector equal the input field
entry-for-entry, and on boundary patches exactly the boundary-adjacent
entries differ, by the computed boundary contribution, while the rest are
unchanged. -/
theorem setupKSPVecs_boundary_adjustment (g : Bool) (x_idx b_idx : Nat)
    (patches : List PatchInfo) (st : KSPVecsState)
    (hb : b_idx ∈ st.store.registered)
    (hnodup : (patches.map PatchInfo.id).Nodup)
    (p : PatchInfo) (hp : p ∈ patches) (face : Nat) :
    (setupKSPVecs g x_idx b_idx patches st).petsc_b p.id face
      = if p.intersectsPhysicalBoundary then
          (if p.isBoundaryAdjacent face then
            st.store.data b_idx p.id face + p.bdryContrib face
          else st.store.data b_idx p.id face)
        else st.store.data b_idx p.id face := by
  have hfresh := freshIndex_not_mem st.store
  have hne : b_idx ≠ freshIndex st.store := fun h => hfresh (h ▸ hb)
  have h := patchLoop_data_at b_idx (freshIndex st.store) hne patches
    (allocateLevelData (freshIndex st.store)
      { st.store with registered := freshIndex st.store :: st.store.registered })
    hnodup p hp
  simp only [setupKSPVecs, registerClonedPatchDataIndex, copyToPatchLevelVec]
  rw [h]
  by_cases hbd : p.intersectsPhysicalBoundary
  · simp [hbd, adjustSCBoundaryRhsEntries, allocateLevelData]
  · simp [hbd, allocateLevelData]

/-- Witness for C5 at a concrete input: a boundary patch whose face 0 is
boundary-adjacent with contribution 5 and whose face 1 is interior. -/
theorem setupKSPVecs_boundary_adjustment_witness :
    (setupKSPVecs false 1 2
        [⟨7, true, fun f => decide (f = 0), fun _ => 5⟩]
        ⟨fun _ _ => 0, fun _ _ => 0,
          ⟨[2], [2], fun i pid face => (i : Int) + pid + face⟩⟩).petsc_b 7 0
      = 14
    ∧ (setupKSPVecs false 1 2
        [⟨7, true, fun f => decide (f = 0), fun _ => 5⟩]
        ⟨fun _ _ => 0, fun _ _ => 0,
          ⟨[2], [2], fun i pid face => (i : Int) + pid + face⟩⟩).petsc_b 7 1
      = 10 := by
  have h0 := setupKSPVecs_boundary_adjustment false 1 2
    [⟨7, true, fun f => decide (f = 0), fun _ => 5⟩]
    ⟨fun _ _ => 0, fun _ _ => 0,
      ⟨[2], [2], fun i pid face => (i : Int) + pid + face⟩⟩
    (by simp) (by simp) ⟨7, true, fun f => decide (f = 0), fun _ => 5⟩
    (by simp) 0
  have h1 := setupKSPVecs_boundary_adjustment false 1 2
    [⟨7, true, fun f => decide (f = 0), fun _ => 5⟩]
    ⟨fun _ _ => 0, fun _ _ => 0,
      ⟨[2], [2], fun i pid face => (i : Int) + pid + face⟩⟩
    (by simp) (by simp) ⟨7, true, fun f => decide (f = 0), fun _ => 5⟩
    (by simp) 1
  exact ⟨h0.trans (by decide), h1.trans (by decide)⟩

/-- C9: the solution field is copied into the distributed solution vector
exactly when the initial-guess-nonzero flag is false; when the flag is set
the distributed solution vector is left untouched, while the
right-hand-side processing is identical in both cases. -/
theorem setupKSPVecs_initial_guess (x_idx b_idx : Nat)
    (patches : List PatchInfo) (st : KSPVecsState) :
    (setupKSPVecs true x_idx b_idx patches st).petsc_x = st.petsc_x
    ∧ (setupKSPVecs false x_idx b_idx patches st).petsc_x
        = copyToPatchLevelVec x_idx st.store
    ∧ (setupKSPVecs true x_idx b_idx patches st).petsc_b
        = (setupKSPVecs false x_idx b_idx patches st).petsc_b
    ∧ (setupKSPVecs true x_idx b_idx patches st).store
        = (setupKSPVecs false x_idx b_idx patches st).store :=
  ⟨rfl, rfl, rfl, rfl⟩

/-- C7: the destructor invokes solver-state deallocation exactly when the
solver is still initialized (the returned flag records the invocation), and
under the invariant that resources are only held while initialized the
destroyed solver holds no DOF index field, no distributed objects, and no
schedules. -/
theorem destructor_releases_iff_initialized (s : SolverState)
    (hinv : (s.dof_index_allocated || s.petsc_objects_held || s.schedules_held)
        = true → s.is_initialized = true) :
    scPoissonDestructor s
      = Except.ok (⟨false, false, false, false⟩, s.is_initialized) := by
  rcases s with ⟨i, d, p, c⟩
  cases i <;> cases d <;> cases p <;> cases c <;>
    simp_all [scPoissonDestructor, deallocateSolverState,
      deallocateSolverStateSpecialized, deallocatePatchData, checkAllocated,
      Except.map]

/-- Witness for C7 at a concrete input: a fully initialized solver. -/
theorem destructor_releases_iff_initialized_witness :
    scPoissonDestructor ⟨true, true, true, true⟩
      = Except.ok (⟨false, false, false, false⟩, true) :=
  destructor_releases_iff_initialized ⟨true, true, true, true⟩ (by decide)

/-- C8: within one call to `initializeSolverStateSpecialized`, the trace is
a prefix of DOF-index allocation steps followed by DOF assignment, then the
two distributed vectors and the matrix sized by this process's per-process
DOF count, and finally the two schedule constructions; no copy-in or
copy-out step occurs during initialization. -/
theorem initializeSolverState_order (dofCounts : List Nat) (rank : Nat)
    (s : PerProcState) :
    ∃ pre,
      (initializeSolverStateSpecialized dofCounts rank s).2
        = pre ++ [InitStep.assignDOFIndices,
            InitStep.createVector (dofCounts.getD rank 0),
            InitStep.createVector (dofCounts.getD rank 0),
            InitStep.createMatrix (dofCounts.getD rank 0),
            InitStep.buildDataSynchSchedule, InitStep.buildGhostFillSchedule]
      ∧ (∀ e ∈ pre, e = InitStep.allocDOFIndexData)
      ∧ InitStep.copyData ∉ (initializeSolverStateSpecialized dofCounts rank s).2 := by
  by_cases h : s.dof_index_allocated
  · refine ⟨[], ?_, by simp, ?_⟩ <;>
      simp [initializeSolverStateSpecialized, constructPatchLevelDOFIndices,
        vecCreateMPI, constructPatchLevelSCLaplaceOp, h]
  · refine ⟨[InitStep.allocDOFIndexData], ?_, by simp, ?_⟩ <;>
      simp [initializeSolverStateSpecialized, constructPatchLevelDOFIndices,
        vecCreateMPI, constructPatchLevelSCLaplaceOp, h]

/-- C10: the DOF index patch data allocation is guarded at both ends of the
lifecycle: the guarded allocation of `initializeSolverStateSpecialized`
always succeeds (it never double-allocates) and leaves the data allocated;
the guarded deallocation of `deallocateSolverStateSpecialized` always
succeeds and leaves the data unallocated, it is a silent no-op on an
unallocated state, and repeating it never faults. -/
theorem dof_index_alloc_guards (s : SolverState) :
    (∃ s', initDofIndexAllocation s = Except.ok s'
        ∧ s'.dof_index_allocated = true)
    ∧ (∃ s', deallocateSolverStateSpecialized s = Except.ok s'
        ∧ s'.dof_index_allocated = false
        ∧ deallocateSolverStateSpecialized s' = Except.ok s')
    ∧ (s.dof_index_allocated = false →
        deallocateSolverStateSpecialized s = Except.ok s) := by
  rcases s with ⟨i, d, p, c⟩
  cases d <;>
    simp [initDofIndexAllocation, allocatePatchData, deallocatePatchData,
      deallocateSolverStateSpecialized, checkAllocated]

/-- Witness for C10 at a concrete input: an uninitialized, unallocated
solver state, on which deallocation is a silent no-op. -/
theorem dof_index_alloc_guards_witness :
    deallocateSolverStateSpecialized ⟨false, false, false, false⟩
      = Except.ok ⟨false, false, false, false⟩ :=
  (dof_index_alloc_guards ⟨false, false, false, false⟩).2.2 rfl

end IBTK
